import Mathlib

/-!
Verification development for the Bubbler repository.

The TypeScript sources are shallowly embedded: JavaScript numbers are
modelled as rationals, `undefined`-able fields as `Option`, and functions
that `throw` as `Except String`. Each definition cites the source file and
function it embeds.
-/

/-- Category id strings used by the frontend (types/bubble.ts). -/
def valuationId : String := "valuation"

/-- Category id for sentiment. -/
def sentimentId : String := "sentiment"

/-- Category id for positioning. -/
def positioningId : String := "positioning"

/-- Category id for macro. -/
def macroId : String := "macro"

/-- Category id for fundamentals. -/
def fundamentalsId : String := "fundamentals"

/-- Sub-indicator id (valuation group, dataMapper.ts line 41). -/
def peRatioId : String := "pe-ratio"

/-- Sub-indicator id (valuation group). -/
def revenueMultipleId : String := "revenue-multiple"

/-- Sub-indicator id (valuation group). -/
def marketCapId : String := "market-cap"

/-- Sub-indicator id (valuation group). -/
def growthPremiumId : String := "growth-premium"

/-- Sub-indicator id (sentiment group). -/
def mediaMentionsId : String := "media-mentions"

/-- Sub-indicator id (sentiment group). -/
def socialSentimentId : String := "social-sentiment"

/-- Sub-indicator id (sentiment group). -/
def searchTrendsId : String := "search-trends"

/-- Sub-indicator id (sentiment group). -/
def analystRatingsId : String := "analyst-ratings"

/-- Sub-indicator id (sentiment group). -/
def ipoActivityId : String := "ipo-activity"

/-- Sub-indicator id (positioning group). -/
def fundFlowsId : String := "fund-flows"

/-- Sub-indicator id (positioning group). -/
def institutionalId : String := "institutional"

/-- Sub-indicator id (positioning group). -/
def retailInterestId : String := "retail-interest"

/-- Sub-indicator id (positioning group). -/
def optionsVolumeId : String := "options-volume"

/-- Sub-indicator id (macro group). -/
def interestRatesId : String := "interest-rates"

/-- Sub-indicator id (macro group). -/
def liquidityId : String := "liquidity"

/-- Sub-indicator id (macro group). -/
def vixId : String := "vix"

/-- Sub-indicator id (macro group). -/
def putCallId : String := "put-call"

/-- Sub-indicator id (fundamentals group). -/
def revenueGrowthId : String := "revenue-growth"

/-- Sub-indicator id (fundamentals group). -/
def profitMarginsId : String := "profit-margins"

/-- Sub-indicator id (fundamentals group). -/
def capexCycleId : String := "capex-cycle"

/-- Sub-indicator id (fundamentals group). -/
def adoptionRateId : String := "adoption-rate"

/-- Sub-indicator id (fundamentals group). -/
def competitionId : String := "competition"

/-- The `Index` interface of types/bubble.ts, restricted to the fields the
embedded functions read (display strings `name`, `description`,
`explanation` are never consulted by any computation). -/
structure Index where
  id : String
  value : ℚ
  userValue : Option ℚ
  marketWeight : ℚ
deriving DecidableEq

/-- The `Category` interface of types/bubble.ts, restricted to the fields
the embedded functions read. -/
structure Category where
  id : String
  indexes : List Index
  userWeight : ℚ
  marketWeight : ℚ
deriving DecidableEq

/-- The risk-level enumeration returned by `getRiskLevel`
(dataMapper.ts lines 114-118). -/
inductive RiskLevel where
  | LOW
  | MEDIUM
  | HIGH
deriving DecidableEq

/-- `getRiskLevel` from dataMapper.ts lines 114-118:
`if (score < 33) return "LOW"; if (score < 67) return "MEDIUM"; return "HIGH";` -/
def getRiskLevel (score : ℚ) : RiskLevel :=
  if score < 33 then RiskLevel.LOW
  else if score < 67 then RiskLevel.MEDIUM
  else RiskLevel.HIGH

/-- JavaScript `index.marketWeight || 1`: a weight of `0` is falsy and is
replaced by `1` (dataMapper.ts line 95). -/
def effWeight (q : ℚ) : ℚ := if q = 0 then 1 else q

/-- The value picked for an index inside `calculateClientRiskScore`
(dataMapper.ts lines 92-94): the user value when requested and present,
otherwise the market value.  This is also the body of the `getValue`
helper of `categoriesToMetrics` (lines 23-28). -/
def indexValue (useUserValues : Bool) (i : Index) : ℚ :=
  if useUserValues then i.userValue.getD i.value else i.value

/-- The per-index weight inside `calculateClientRiskScore`
(dataMapper.ts line 95): `useUserValues ? 1 : index.marketWeight || 1`. -/
def indexWeight (useUserValues : Bool) (i : Index) : ℚ :=
  if useUserValues then 1 else effWeight i.marketWeight

/-- The category-level weight picked by `calculateClientRiskScore`
(dataMapper.ts line 87). -/
def categoryWeight (useUserValues : Bool) (c : Category) : ℚ :=
  if useUserValues then c.userWeight else c.marketWeight

/-- The per-category score computed by the loop body of
`calculateClientRiskScore` (dataMapper.ts lines 88-102): accumulate
`value * indexWeight` and `indexWeight`, then divide only when the
accumulated weight is positive. -/
def clientCategoryScore (useUserValues : Bool) (c : Category) : ℚ :=
  let inner := c.indexes.foldl
    (fun a i => (a.1 + indexValue useUserValues i * indexWeight useUserValues i,
                 a.2 + indexWeight useUserValues i)) (0, 0)
  if inner.2 > 0 then inner.1 / inner.2 else inner.1

/-- `calculateClientRiskScore` from dataMapper.ts lines 79-109: the
weighted average of the per-category scores, weighted by the category
weights, returning `0` when the total weight is not positive.  Note the
source applies no ceiling clamp. -/
def calculateClientRiskScore (cats : List Category) (useUserValues : Bool) : ℚ :=
  let totals := cats.foldl
    (fun acc c => (acc.1 + clientCategoryScore useUserValues c * categoryWeight useUserValues c,
                   acc.2 + categoryWeight useUserValues c)) (0, 0)
  if totals.2 > 0 then totals.1 / totals.2 else 0

/-- `calculateScore` from MarketConsensus.tsx lines 18-32: each category
score is the plain mean of its index values, aggregated by market
weight and clamped with `Math.min(100, ...)`. -/
def marketCalculateScore (cats : List Category) : ℚ :=
  let totals := cats.foldl
    (fun acc c =>
      (acc.1 + ((c.indexes.foldl (fun s i => s + i.value) 0) / (c.indexes.length : ℚ)) * c.marketWeight,
       acc.2 + c.marketWeight)) (0, 0)
  if totals.2 > 0 then min 100 (totals.1 / totals.2) else 0

/-- `calculateScore` from UserAnalysis.tsx lines 25-38: each category
score is the plain mean of its (user-overridable) index values, scaled by
`userWeight / 100`, summed, divided by the number of categories and
clamped with `Math.min(100, ...)`. -/
def userCalculateScore (cats : List Category) : ℚ :=
  let totalScore := cats.foldl
    (fun acc c =>
      acc + ((c.indexes.foldl (fun s i => s + i.userValue.getD i.value) 0) / (c.indexes.length : ℚ))
              * (c.userWeight / 100)) 0
  min 100 (totalScore / (cats.length : ℚ))

/-- The `category_1_valuation` record of the backend `MetricsData`
shape produced by `categoriesToMetrics` (dataMapper.ts lines 40-45).
Field names follow the source with a `Value` suffix where Lean naming
requires it. -/
structure ValuationMetrics where
  peRatioValue : ℚ
  revenueMultiple : ℚ
  marketCapGdp : ℚ
  growthPremium : ℚ
deriving DecidableEq

/-- `category_2_sentiment` of `MetricsData` (dataMapper.ts lines 46-52). -/
structure SentimentMetrics where
  mediaMentions : ℚ
  socialSentiment : ℚ
  searchTrends : ℚ
  analystRatings : ℚ
  ipoActivity : ℚ
deriving DecidableEq

/-- `category_3_positioning` of `MetricsData` (dataMapper.ts lines 53-58). -/
structure PositioningMetrics where
  fundFlows : ℚ
  institutionalHoldings : ℚ
  retailInterest : ℚ
  optionsVolume : ℚ
deriving DecidableEq

/-- `category_4_macro` of `MetricsData` (dataMapper.ts lines 59-64). -/
structure MacroMetrics where
  interestRates : ℚ
  liquidity : ℚ
  vix : ℚ
  putCallRatioValue : ℚ
deriving DecidableEq

/-- `category_5_fundamentals` of `MetricsData` (dataMapper.ts lines 65-71). -/
structure FundamentalsMetrics where
  revenueGrowth : ℚ
  profitMargins : ℚ
  capexCycle : ℚ
  adoptionRate : ℚ
  competition : ℚ
deriving DecidableEq

/-- The backend `MetricsData` shape (types/api.ts), as populated by
`categoriesToMetrics`. -/
structure MetricsData where
  category1Valuation : ValuationMetrics
  category2Sentiment : SentimentMetrics
  category3Positioning : PositioningMetrics
  category4Macro : MacroMetrics
  category5Fundamentals : FundamentalsMetrics
deriving DecidableEq

/-- Error message thrown by `categoriesToMetrics` when one of the five
categories is absent (dataMapper.ts line 19). -/
def missingCategoriesMsg : String := "Missing required categories"

/-- Error message thrown by the `findIndex` helper of
`categoriesToMetrics` (dataMapper.ts line 34). -/
def indexNotFoundMsg (id cid : String) : String :=
  "Index " ++ id ++ " not found in category " ++ cid

/-- The `findIndex` helper of `categoriesToMetrics` (dataMapper.ts
lines 31-37): look an index up by id, throwing when absent. -/
def findIndexById (c : Category) (id : String) : Except String Index :=
  match c.indexes.find? (fun i => i.id == id) with
  | some i => Except.ok i
  | none => Except.error (indexNotFoundMsg id c.id)

/-- `getValue(findIndex(category, id))` as used for every `MetricsData`
field (dataMapper.ts lines 40-71). -/
def metricOf (useUserValues : Bool) (c : Category) (id : String) : Except String ℚ := do
  let i ← findIndexById c id
  pure (indexValue useUserValues i)

/-- The `category.find` lookup used for each of the five category groups
(dataMapper.ts lines 12-16). -/
def requireCategory (cats : List Category) (id : String) : Option Category :=
  cats.find? (fun c => c.id == id)

/-- The record construction of `categoriesToMetrics` (dataMapper.ts
lines 39-72), field by field in source order; the first missing index
id raises the first error, as the JavaScript object literal would. -/
def buildMetrics (useUserValues : Bool)
    (valuationCat sentimentCat positioningCat macroCat fundamentalsCat : Category) :
    Except String MetricsData := do
  let v1 ← metricOf useUserValues valuationCat peRatioId
  let v2 ← metricOf useUserValues valuationCat revenueMultipleId
  let v3 ← metricOf useUserValues valuationCat marketCapId
  let v4 ← metricOf useUserValues valuationCat growthPremiumId
  let s1 ← metricOf useUserValues sentimentCat mediaMentionsId
  let s2 ← metricOf useUserValues sentimentCat socialSentimentId
  let s3 ← metricOf useUserValues sentimentCat searchTrendsId
  let s4 ← metricOf useUserValues sentimentCat analystRatingsId
  let s5 ← metricOf useUserValues sentimentCat ipoActivityId
  let p1 ← metricOf useUserValues positioningCat fundFlowsId
  let p2 ← metricOf useUserValues positioningCat institutionalId
  let p3 ← metricOf useUserValues positioningCat retailInterestId
  let p4 ← metricOf useUserValues positioningCat optionsVolumeId
  let m1 ← metricOf useUserValues macroCat interestRatesId
  let m2 ← metricOf useUserValues macroCat liquidityId
  let m3 ← metricOf useUserValues macroCat vixId
  let m4 ← metricOf useUserValues macroCat putCallId
  let f1 ← metricOf useUserValues fundamentalsCat revenueGrowthId
  let f2 ← metricOf useUserValues fundamentalsCat profitMarginsId
  let f3 ← metricOf useUserValues fundamentalsCat capexCycleId
  let f4 ← metricOf useUserValues fundamentalsCat adoptionRateId
  let f5 ← metricOf useUserValues fundamentalsCat competitionId
  pure ⟨⟨v1, v2, v3, v4⟩, ⟨s1, s2, s3, s4, s5⟩, ⟨p1, p2, p3, p4⟩, ⟨m1, m2, m3, m4⟩,
    ⟨f1, f2, f3, f4, f5⟩⟩

/-- `categoriesToMetrics` from dataMapper.ts lines 8-73: find the five
category groups (any absence yields the single combined
`Missing required categories` error of line 19, which names no
category), then build the flat metrics record. -/
def categoriesToMetrics (cats : List Category) (useUserValues : Bool) :
    Except String MetricsData :=
  match requireCategory cats valuationId with
  | none => Except.error missingCategoriesMsg
  | some valuationCat =>
    match requireCategory cats sentimentId with
    | none => Except.error missingCategoriesMsg
    | some sentimentCat =>
      match requireCategory cats positioningId with
      | none => Except.error missingCategoriesMsg
      | some positioningCat =>
        match requireCategory cats macroId with
        | none => Except.error missingCategoriesMsg
        | some macroCat =>
          match requireCategory cats fundamentalsId with
          | none => Except.error missingCategoriesMsg
          | some fundamentalsCat =>
            buildMetrics useUserValues valuationCat sentimentCat positioningCat
              macroCat fundamentalsCat

/-- An index with a given id and market value, no user override and
market weight 10; used to build concrete payloads. -/
def sampleIndex (id : String) (v : ℚ) : Index := ⟨id, v, none, 10⟩

/-- A complete indicator payload: all five categories with their full
fixed sub-indicator schema, every value 50 except the `pe-ratio` value,
which is the parameter. -/
def completeCats (pe : ℚ) : List Category :=
  [⟨valuationId,
      [sampleIndex peRatioId pe, sampleIndex revenueMultipleId 50,
       sampleIndex marketCapId 50, sampleIndex growthPremiumId 50], 50, 50⟩,
   ⟨sentimentId,
      [sampleIndex mediaMentionsId 50, sampleIndex socialSentimentId 50,
       sampleIndex searchTrendsId 50, sampleIndex analystRatingsId 50,
       sampleIndex ipoActivityId 50], 50, 50⟩,
   ⟨positioningId,
      [sampleIndex fundFlowsId 50, sampleIndex institutionalId 50,
       sampleIndex retailInterestId 50, sampleIndex optionsVolumeId 50], 50, 50⟩,
   ⟨macroId,
      [sampleIndex interestRatesId 50, sampleIndex liquidityId 50,
       sampleIndex vixId 50, sampleIndex putCallId 50], 50, 50⟩,
   ⟨fundamentalsId,
      [sampleIndex revenueGrowthId 50, sampleIndex profitMarginsId 50,
       sampleIndex capexCycleId 50, sampleIndex adoptionRateId 50,
       sampleIndex competitionId 50], 50, 50⟩]

/-- The metrics record `categoriesToMetrics` produces for
`completeCats pe`. -/
def completeMetrics (pe : ℚ) : MetricsData :=
  ⟨⟨pe, 50, 50, 50⟩, ⟨50, 50, 50, 50, 50⟩, ⟨50, 50, 50, 50⟩, ⟨50, 50, 50, 50⟩,
   ⟨50, 50, 50, 50, 50⟩⟩

/-- The per-category formula of spec section 4.2 as literally claimed:
`category_score = (sum of value times weight) / (sum of weight)` over the
raw sub-indicator weights. -/
def claimCategoryScore (c : Category) : ℚ :=
  (c.indexes.map (fun i => i.value * i.marketWeight)).sum /
    (c.indexes.map (fun i => i.marketWeight)).sum

/-- The risk-score formula of spec section 4.2 as literally claimed:
`risk_score = min(100, (sum of category_score times category_weight) /
(sum of category_weight))`. -/
def claimRiskScore (cats : List Category) : ℚ :=
  min 100 ((cats.map (fun c => claimCategoryScore c * c.marketWeight)).sum /
    (cats.map (fun c => c.marketWeight)).sum)

/-- The per-category formula the code actually implements: as
`claimCategoryScore`, but over the effective weights, where a raw weight
of `0` is coerced to `1` by `marketWeight || 1`. -/
def specCategoryScore (c : Category) : ℚ :=
  (c.indexes.map (fun i => i.value * effWeight i.marketWeight)).sum /
    (c.indexes.map (fun i => effWeight i.marketWeight)).sum

/-- The aggregate formula the code actually implements on valid input:
the effective-weight weighted average of `specCategoryScore`, capped at
100 (the cap is vacuous for in-range values). -/
def specRiskScore (cats : List Category) : ℚ :=
  min 100 ((cats.map (fun c => specCategoryScore c * c.marketWeight)).sum /
    (cats.map (fun c => c.marketWeight)).sum)

/-- A five-category payload, valid per the spec (all values and weights in
`[0,100]`), in which each category holds one sub-indicator of value 100
and weight 1 and one of value 0 and weight 0.  The claimed formula rates
it 100; the code rates it 50 because the zero weight is coerced to 1. -/
def zeroWeightCats : List Category :=
  [⟨valuationId, [⟨peRatioId, 100, none, 1⟩, ⟨revenueMultipleId, 0, none, 0⟩], 50, 50⟩,
   ⟨sentimentId, [⟨mediaMentionsId, 100, none, 1⟩, ⟨socialSentimentId, 0, none, 0⟩], 50, 50⟩,
   ⟨positioningId, [⟨fundFlowsId, 100, none, 1⟩, ⟨institutionalId, 0, none, 0⟩], 50, 50⟩,
   ⟨macroId, [⟨interestRatesId, 100, none, 1⟩, ⟨liquidityId, 0, none, 0⟩], 50, 50⟩,
   ⟨fundamentalsId, [⟨revenueGrowthId, 100, none, 1⟩, ⟨profitMarginsId, 0, none, 0⟩], 50, 50⟩]

/-- A single category whose only sub-indicator has value 80 and weight 0:
its total raw sub-indicator weight is 0. -/
def zeroWeightCategory : Category := ⟨valuationId, [⟨peRatioId, 80, none, 0⟩], 50, 50⟩

/-- A five-category payload with every sub-indicator value 150, i.e. an
indicator set whose weighted aggregation arithmetically exceeds 100. -/
def overflowCats : List Category :=
  [⟨valuationId, [⟨peRatioId, 150, none, 10⟩], 50, 50⟩,
   ⟨sentimentId, [⟨mediaMentionsId, 150, none, 10⟩], 50, 50⟩,
   ⟨positioningId, [⟨fundFlowsId, 150, none, 10⟩], 50, 50⟩,
   ⟨macroId, [⟨interestRatesId, 150, none, 10⟩], 50, 50⟩,
   ⟨fundamentalsId, [⟨revenueGrowthId, 150, none, 10⟩], 50, 50⟩]

/-- A five-category payload with every sub-indicator value 50, uniform
sub-indicator weights within each category, and all five category weights
(user and market) equal to 50. -/
def uniformFiftyCats : List Category :=
  [⟨valuationId, [⟨peRatioId, 50, none, 10⟩, ⟨revenueMultipleId, 50, none, 10⟩], 50, 50⟩,
   ⟨sentimentId, [⟨mediaMentionsId, 50, none, 10⟩, ⟨socialSentimentId, 50, none, 10⟩], 50, 50⟩,
   ⟨positioningId, [⟨fundFlowsId, 50, none, 10⟩, ⟨institutionalId, 50, none, 10⟩], 50, 50⟩,
   ⟨macroId, [⟨interestRatesId, 50, none, 10⟩, ⟨liquidityId, 50, none, 10⟩], 50, 50⟩,
   ⟨fundamentalsId, [⟨revenueGrowthId, 50, none, 10⟩, ⟨profitMarginsId, 50, none, 10⟩], 50, 50⟩]

/-- A payload identical to `completeCats 50` except that every
sub-indicator additionally carries a user override of 7. -/
def sampleIndexU (id : String) (v : ℚ) : Index := ⟨id, v, some 7, 10⟩

/-- `completeCats 50` with arbitrary (here: 7) user overrides everywhere;
agrees with `completeCats 50` on ids and market values. -/
def completeCatsU : List Category :=
  [⟨valuationId,
      [sampleIndexU peRatioId 50, sampleIndexU revenueMultipleId 50,
       sampleIndexU marketCapId 50, sampleIndexU growthPremiumId 50], 50, 50⟩,
   ⟨sentimentId,
      [sampleIndexU mediaMentionsId 50, sampleIndexU socialSentimentId 50,
       sampleIndexU searchTrendsId 50, sampleIndexU analystRatingsId 50,
       sampleIndexU ipoActivityId 50], 50, 50⟩,
   ⟨positioningId,
      [sampleIndexU fundFlowsId 50, sampleIndexU institutionalId 50,
       sampleIndexU retailInterestId 50, sampleIndexU optionsVolumeId 50], 50, 50⟩,
   ⟨macroId,
      [sampleIndexU interestRatesId 50, sampleIndexU liquidityId 50,
       sampleIndexU vixId 50, sampleIndexU putCallId 50], 50, 50⟩,
   ⟨fundamentalsId,
      [sampleIndexU revenueGrowthId 50, sampleIndexU profitMarginsId 50,
       sampleIndexU capexCycleId 50, sampleIndexU adoptionRateId 50,
       sampleIndexU competitionId 50], 50, 50⟩]

/-- `completeCats 50` with one category group removed. -/
def catsWithout (cid : String) : List Category :=
  (completeCats 50).filter (fun c => !(c.id == cid))

/-- The fixed sub-indicator schema of `categoriesToMetrics`: each pair is
(category id, required sub-indicator id), in source construction order. -/
def requiredSchema : List (String × String) :=
  [(valuationId, peRatioId), (valuationId, revenueMultipleId),
   (valuationId, marketCapId), (valuationId, growthPremiumId),
   (sentimentId, mediaMentionsId), (sentimentId, socialSentimentId),
   (sentimentId, searchTrendsId), (sentimentId, analystRatingsId),
   (sentimentId, ipoActivityId),
   (positioningId, fundFlowsId), (positioningId, institutionalId),
   (positioningId, retailInterestId), (positioningId, optionsVolumeId),
   (macroId, interestRatesId), (macroId, liquidityId),
   (macroId, vixId), (macroId, putCallId),
   (fundamentalsId, revenueGrowthId), (fundamentalsId, profitMarginsId),
   (fundamentalsId, capexCycleId), (fundamentalsId, adoptionRateId),
   (fundamentalsId, competitionId)]

/-- Whether the payload has a category `cid` containing a sub-indicator
`iid`. -/
def categoryHasIndex (cats : List Category) (cid iid : String) : Bool :=
  match requireCategory cats cid with
  | some c => (c.indexes.find? (fun i => i.id == iid)).isSome
  | none => false

/-- Agreement of two indexes on id and market value; the `userValue` and
weight fields are unconstrained. -/
def IndexMarketAgree (i j : Index) : Prop := i.id = j.id ∧ i.value = j.value

/-- Agreement of two categories on id and, pointwise, on the market data
of their indexes. -/
def CategoryMarketAgree (c d : Category) : Prop :=
  c.id = d.id ∧ List.Forall₂ IndexMarketAgree c.indexes d.indexes

/-- Canonicalization used to prove the non-interference claim: drop the
user override and the weights, keeping exactly the fields
`categoriesToMetrics _ false` reads. -/
def eraseIdxUser (i : Index) : Index := ⟨i.id, i.value, none, 0⟩

/-- Canonicalization of a category for the non-interference proof. -/
def eraseCatUser (c : Category) : Category := ⟨c.id, c.indexes.map eraseIdxUser, 0, 0⟩

/-- Modelled from the spec (sections 3 and 4.4): one conversation turn, a
pair of user utterance and agent reply.  The backend store
(`backend/services/bubble_agent.py` and `backend/main.py`) is not part of
the provided sources; timestamps are abstracted away, ordering being the
list order. -/
structure Turn where
  userText : String
  agentText : String
deriving DecidableEq

/-- Modelled from the spec (section 3, Bubble State): the per-bubble
record owned by the Bubble State Store.  Conversation identifiers are
modelled as naturals minted from the `nextConvId` counter; the backend
that mints opaque string identifiers is not part of the provided
sources. -/
structure StoredBubble where
  indicators : List Category
  riskScore : ℚ
  riskLevel : RiskLevel
  persona : String
  conversations : List (Nat × List Turn)
  nextConvId : Nat
deriving DecidableEq

/-- Modelled from the spec (section 4.3): the total, stateless mapping
from risk level to one of exactly three fixed persona descriptors. -/
def personaFor : RiskLevel → String
  | RiskLevel.LOW => "confident and euphoric"
  | RiskLevel.MEDIUM => "anxious and uncertain"
  | RiskLevel.HIGH => "panicked and fragile"

/-- Modelled from the spec (section 4.4): the store keyed by bubble
identifier, with lookup by key. -/
def lookupBubble (st : List (String × StoredBubble)) (bid : String) : Option StoredBubble :=
  (st.find? (fun p => p.1 == bid)).map Prod.snd

/-- Modelled from the spec (section 3): the state written by a
(re-)initialization — indicators replaced, score, level and persona
recomputed by the repository scoring chain, conversation log and the
conversation-id counter carried over untouched. -/
def freshBubble (ind : List Category) (old : Option StoredBubble) : StoredBubble :=
  let score := calculateClientRiskScore ind false
  let level := getRiskLevel score
  ⟨ind, score, level, personaFor level,
   (old.map (fun b => b.conversations)).getD [],
   (old.map (fun b => b.nextConvId)).getD 0⟩

/-- Modelled from the spec (section 4.4, `upsert`): replace the entry of
the given bubble identifier, creating it on first initialization; entries
of every other identifier are carried over as they are. -/
def upsertBubble (st : List (String × StoredBubble)) (bid : String) (ind : List Category) :
    List (String × StoredBubble) :=
  match lookupBubble st bid with
  | some old => st.map (fun p => if p.1 == bid then (p.1, freshBubble ind (some old)) else p)
  | none => st ++ [(bid, freshBubble ind none)]

/-- Modelled from the spec (section 4.4, `appendTurn`): append one turn to
the log of the given conversation identifier, creating the log lazily on
its first turn. -/
def appendTurn (b : StoredBubble) (cid : Nat) (t : Turn) : StoredBubble :=
  match b with
  | ⟨ind, sc, lv, pe, convs, next⟩ =>
    if (convs.find? (fun p => p.1 == cid)).isSome then
      ⟨ind, sc, lv, pe, convs.map (fun p => if p.1 == cid then (p.1, p.2 ++ [t]) else p), next⟩
    else
      ⟨ind, sc, lv, pe, convs ++ [(cid, [t])], next⟩

/-- Modelled from the spec (section 4.4, `history`): the ordered turn
sequence of a conversation identifier, empty when unseen. -/
def historyOf (b : StoredBubble) (cid : Nat) : List Turn :=
  ((b.conversations.find? (fun p => p.1 == cid)).map Prod.snd).getD []

/-- Advance the conversation-id counter after minting. -/
def bumpConv : StoredBubble → StoredBubble
  | ⟨ind, sc, lv, pe, convs, next⟩ => ⟨ind, sc, lv, pe, convs, next + 1⟩

/-- Modelled from the spec (section 4.5): the store effect of one
completed voice-conversation call on a bubble — append the (user, agent)
turn under the supplied conversation identifier, or mint a fresh
identifier when none is supplied, returning the identifier used. -/
def voiceTurn (b : StoredBubble) (cid : Option Nat) (userText agentText : String) :
    StoredBubble × Nat :=
  match cid with
  | some c => (appendTurn b c ⟨userText, agentText⟩, c)
  | none => (appendTurn (bumpConv b) b.nextConvId ⟨userText, agentText⟩, b.nextConvId)

/-- A concrete stored bubble with no conversations, used by witnesses. -/
def emptyBubble : StoredBubble :=
  ⟨completeCats 50, 50, RiskLevel.MEDIUM, personaFor RiskLevel.MEDIUM, [], 0⟩

/-- The market bubble identifier used by the frontend. -/
def marketBubbleId : String := "market"

/-- The personal bubble identifier used by the frontend. -/
def personalBubbleId : String := "personal_user"

/-- A store holding the two frontend bubbles. -/
def twoBubbleStore : List (String × StoredBubble) :=
  [(marketBubbleId, emptyBubble), (personalBubbleId, emptyBubble)]

/-- A category whose two sub-indicators both carry raw weight 0. -/
def meanWitnessCategory : Category :=
  ⟨valuationId, [⟨peRatioId, 42, none, 0⟩, ⟨revenueMultipleId, 58, none, 0⟩], 50, 50⟩

/-- Sample utterance used by conversation witnesses. -/
def greetingText : String := "hello bubble"

/-- Sample reply used by conversation witnesses. -/
def greetingReply : String := "hello caller"

/-- Second sample utterance used by conversation witnesses. -/
def followText : String := "how risky are you"

/-- Second sample reply used by conversation witnesses. -/
def followReply : String := "quite risky"

/-- A pair-accumulating fold is the pair of the mapped sums. -/
theorem foldl_pair_eq {α : Type} (f g : α → ℚ) :
    ∀ (l : List α) (a : ℚ × ℚ),
      l.foldl (fun p x => (p.1 + f x, p.2 + g x)) a =
        (a.1 + (l.map f).sum, a.2 + (l.map g).sum) := by
  intro l
  induction l with
  | nil => intro a; simp
  | cons x xs ih =>
    intro a
    simp only [List.foldl_cons, List.map_cons, List.sum_cons, ih]
    rw [Prod.mk.injEq]
    constructor <;> ring

/-- A scalar-accumulating fold is the mapped sum. -/
theorem foldl_sum_eq {α : Type} (f : α → ℚ) :
    ∀ (l : List α) (a : ℚ),
      l.foldl (fun s x => s + f x) a = a + (l.map f).sum := by
  intro l
  induction l with
  | nil => intro a; simp
  | cons x xs ih =>
    intro a
    simp only [List.foldl_cons, List.map_cons, List.sum_cons, ih]
    ring

/-- Closed form of the per-category loop of `calculateClientRiskScore`. -/
theorem clientCategoryScore_eq (u : Bool) (c : Category) :
    clientCategoryScore u c =
      if 0 < (c.indexes.map (indexWeight u)).sum then
        (c.indexes.map (fun i => indexValue u i * indexWeight u i)).sum /
          (c.indexes.map (indexWeight u)).sum
      else (c.indexes.map (fun i => indexValue u i * indexWeight u i)).sum := by
  unfold clientCategoryScore
  rw [foldl_pair_eq (fun i => indexValue u i * indexWeight u i) (indexWeight u)]
  simp [gt_iff_lt]

/-- Closed form of `calculateClientRiskScore`. -/
theorem calculateClientRiskScore_eq (cats : List Category) (u : Bool) :
    calculateClientRiskScore cats u =
      if 0 < (cats.map (categoryWeight u)).sum then
        (cats.map (fun c => clientCategoryScore u c * categoryWeight u c)).sum /
          (cats.map (categoryWeight u)).sum
      else 0 := by
  unfold calculateClientRiskScore
  rw [foldl_pair_eq (fun c => clientCategoryScore u c * categoryWeight u c) (categoryWeight u)]
  simp [gt_iff_lt]

/-- A weighted sum with values bounded by `B` and nonnegative weights is
bounded by `B` times the total weight. -/
theorem weighted_sum_le {α : Type} (l : List α) (f w : α → ℚ) (B : ℚ)
    (hf : ∀ x ∈ l, f x ≤ B) (hw : ∀ x ∈ l, 0 ≤ w x) :
    (l.map (fun x => f x * w x)).sum ≤ B * (l.map w).sum := by
  induction l with
  | nil => simp
  | cons x xs ih =>
    simp only [List.map_cons, List.sum_cons, mul_add]
    have h1 : f x * w x ≤ B * w x :=
      mul_le_mul_of_nonneg_right (hf x (List.mem_cons_self x xs)) (hw x (List.mem_cons_self x xs))
    have h2 := ih (fun y hy => hf y (List.mem_cons_of_mem x hy))
      (fun y hy => hw y (List.mem_cons_of_mem x hy))
    linarith

/-- The effective index weight is positive whenever the raw market weight
is nonnegative. -/
theorem effWeight_pos {q : ℚ} (h : 0 ≤ q) : 0 < effWeight q := by
  unfold effWeight
  split
  · norm_num
  · rename_i hq
    exact lt_of_le_of_ne h (Ne.symm hq)

/-- In market mode every index weight used by the loop is positive when
raw weights are nonnegative. -/
theorem indexWeight_pos (u : Bool) (i : Index) (h : 0 ≤ i.marketWeight) :
    0 < indexWeight u i := by
  unfold indexWeight
  split
  · norm_num
  · exact effWeight_pos h

/-- A per-category score never exceeds 100 when every index value is at
most 100 and raw index weights are nonnegative. -/
theorem clientCategoryScore_le (u : Bool) (c : Category)
    (hv : ∀ i ∈ c.indexes, indexValue u i ≤ 100)
    (hw : ∀ i ∈ c.indexes, 0 ≤ i.marketWeight) :
    clientCategoryScore u c ≤ 100 := by
  rw [clientCategoryScore_eq]
  have hwn : ∀ i ∈ c.indexes, 0 ≤ indexWeight u i :=
    fun i hi => le_of_lt (indexWeight_pos u i (hw i hi))
  have hb := weighted_sum_le c.indexes (indexValue u) (indexWeight u) 100 hv hwn
  split
  · rename_i hpos
    rw [div_le_iff₀ hpos]
    exact hb
  · rename_i hnp
    have h0 : (c.indexes.map (indexWeight u)).sum ≤ 0 := le_of_not_lt hnp
    have hnn : (0:ℚ) ≤ (c.indexes.map (indexWeight u)).sum :=
      List.sum_nonneg (by
        intro q hq
        rcases List.mem_map.1 hq with ⟨i, hi, rfl⟩
        exact hwn i hi)
    have : (c.indexes.map (indexWeight u)).sum = 0 := le_antisymm h0 hnn
    calc (c.indexes.map (fun i => indexValue u i * indexWeight u i)).sum
        ≤ 100 * (c.indexes.map (indexWeight u)).sum := hb
      _ = 0 := by rw [this]; ring
      _ ≤ 100 := by norm_num

/-- `calculateClientRiskScore` never exceeds 100 when every index value is
at most 100 and all weights are nonnegative. -/
theorem calculateClientRiskScore_le (cats : List Category) (u : Bool)
    (hv : ∀ c ∈ cats, ∀ i ∈ c.indexes, indexValue u i ≤ 100)
    (hw : ∀ c ∈ cats, ∀ i ∈ c.indexes, 0 ≤ i.marketWeight)
    (hcw : ∀ c ∈ cats, 0 ≤ categoryWeight u c) :
    calculateClientRiskScore cats u ≤ 100 := by
  rw [calculateClientRiskScore_eq]
  have hcs : ∀ c ∈ cats, clientCategoryScore u c ≤ 100 :=
    fun c hc => clientCategoryScore_le u c (hv c hc) (hw c hc)
  have hb := weighted_sum_le cats (clientCategoryScore u) (categoryWeight u) 100 hcs hcw
  split
  · rename_i hpos
    rw [div_le_iff₀ hpos]
    exact hb
  · norm_num

/-- Sum of a positively valued map over a nonempty list is positive. -/
theorem map_sum_pos {α : Type} (l : List α) (w : α → ℚ) (hne : l ≠ [])
    (hw : ∀ x ∈ l, 0 < w x) : 0 < (l.map w).sum := by
  apply List.sum_pos
  · intro q hq
    rcases List.mem_map.1 hq with ⟨x, hx, rfl⟩
    exact hw x hx
  · simpa using hne

/-- If every index of a category has value `k` (in the mode in use) and
raw weights are nonnegative, the per-category loop score is `k` — or `0`
for a category with no indexes. -/
theorem clientCategoryScore_const (u : Bool) (c : Category) (k : ℚ)
    (hne : c.indexes ≠ [])
    (hv : ∀ i ∈ c.indexes, indexValue u i = k)
    (hw : ∀ i ∈ c.indexes, 0 ≤ i.marketWeight) :
    clientCategoryScore u c = k := by
  rw [clientCategoryScore_eq]
  have hwpos : ∀ i ∈ c.indexes, 0 < indexWeight u i :=
    fun i hi => indexWeight_pos u i (hw i hi)
  have hWpos : 0 < (c.indexes.map (indexWeight u)).sum :=
    map_sum_pos c.indexes (indexWeight u) hne hwpos
  have hnum : (c.indexes.map (fun i => indexValue u i * indexWeight u i)).sum =
      k * (c.indexes.map (indexWeight u)).sum := by
    rw [← List.sum_map_mul_left]
    apply congrArg
    apply List.map_congr_left
    intro i hi
    rw [hv i hi]
  rw [if_pos hWpos, hnum, mul_div_assoc, div_self (ne_of_gt hWpos), mul_one]

/-- If every category scores `k` and category weights are nonnegative
with positive total, the aggregated client risk score is `k`. -/
theorem calculateClientRiskScore_const (cats : List Category) (u : Bool) (k : ℚ)
    (hcs : ∀ c ∈ cats, clientCategoryScore u c = k)
    (hcw : 0 < (cats.map (categoryWeight u)).sum) :
    calculateClientRiskScore cats u = k := by
  rw [calculateClientRiskScore_eq, if_pos hcw]
  have hnum : (cats.map (fun c => clientCategoryScore u c * categoryWeight u c)).sum =
      k * (cats.map (categoryWeight u)).sum := by
    rw [← List.sum_map_mul_left]
    apply congrArg
    apply List.map_congr_left
    intro c hc
    rw [hcs c hc]
  rw [hnum, mul_div_assoc, div_self (ne_of_gt hcw), mul_one]

/-- If every index value is `0` the per-category loop score is `0`, with
no side conditions: the numerator sum is identically zero. -/
theorem clientCategoryScore_zero (u : Bool) (c : Category)
    (hv : ∀ i ∈ c.indexes, indexValue u i = 0) :
    clientCategoryScore u c = 0 := by
  rw [clientCategoryScore_eq]
  have hnum : (c.indexes.map (fun i => indexValue u i * indexWeight u i)).sum = 0 := by
    rw [List.sum_eq_zero]
    intro q hq
    rcases List.mem_map.1 hq with ⟨i, hi, rfl⟩
    rw [hv i hi, zero_mul]
  rw [hnum]
  split <;> simp

/-- If every category scores `0` the aggregated client risk score is `0`,
with no weight hypotheses. -/
theorem calculateClientRiskScore_zero (cats : List Category) (u : Bool)
    (hcs : ∀ c ∈ cats, clientCategoryScore u c = 0) :
    calculateClientRiskScore cats u = 0 := by
  rw [calculateClientRiskScore_eq]
  have hnum : (cats.map (fun c => clientCategoryScore u c * categoryWeight u c)).sum = 0 := by
    rw [List.sum_eq_zero]
    intro q hq
    rcases List.mem_map.1 hq with ⟨c, hc, rfl⟩
    rw [hcs c hc, zero_mul]
  rw [hnum]
  split <;> simp

/-- In market mode the picked value is the market value. -/
theorem indexValue_false (i : Index) : indexValue false i = i.value := rfl

/-- In market mode the loop weight is the effective market weight. -/
theorem indexWeight_false (i : Index) : indexWeight false i = effWeight i.marketWeight := rfl

/-- In market mode the category weight is the market weight. -/
theorem categoryWeight_false (c : Category) : categoryWeight false c = c.marketWeight := rfl

/-- Summing the constant map 1 over a list counts its length. -/
theorem sum_map_one {α : Type} (l : List α) :
    (l.map (fun _ => (1:ℚ))).sum = (l.length : ℚ) := by
  induction l with
  | nil => simp
  | cons x xs ih => simp [ih, add_comm]

/-- In market mode the per-category loop score coincides with the
effective-weight formula, for nonnegative raw weights. -/
theorem clientCategoryScore_false_spec (c : Category)
    (hw : ∀ i ∈ c.indexes, 0 ≤ i.marketWeight) :
    clientCategoryScore false c = specCategoryScore c := by
  rw [clientCategoryScore_eq]
  unfold specCategoryScore
  have hfun : indexWeight false = fun (i : Index) => effWeight i.marketWeight := rfl
  simp only [indexValue_false, indexWeight_false, hfun]
  rcases eq_or_ne c.indexes [] with hne | hne
  · simp [hne]
  · have hWpos : 0 < (c.indexes.map (fun i => effWeight i.marketWeight)).sum :=
      map_sum_pos c.indexes _ hne (fun i hi => effWeight_pos (hw i hi))
    rw [if_pos hWpos]

/-- `find?` over a single appended element. -/
theorem find?_append_one {α : Type} (l : List α) (x : α) (p : α → Bool) :
    (l ++ [x]).find? p =
      match l.find? p with
      | some y => some y
      | none => if p x then some x else none := by
  induction l with
  | nil =>
    cases hpx : p x <;> simp [List.find?, hpx]
  | cons a as ih =>
    cases hpa : p a <;> simp [List.find?, hpa, ih]

/-- `requireCategory` commutes with the user-data erasure. -/
theorem requireCategory_erase (cats : List Category) (id : String) :
    requireCategory (cats.map eraseCatUser) id =
      (requireCategory cats id).map eraseCatUser := by
  unfold requireCategory
  rw [List.find?_map]
  apply congrArg
  apply congrArg (fun p => List.find? p cats)
  funext c
  rfl

/-- `metricOf` in market mode ignores the user data erased by
`eraseCatUser`. -/
theorem metricOf_erase (c : Category) (id : String) :
    metricOf false (eraseCatUser c) id = metricOf false c id := by
  unfold metricOf findIndexById
  show (match (c.indexes.map eraseIdxUser).find? (fun i => i.id == id) with
    | some i => Except.ok i
    | none => Except.error (indexNotFoundMsg id (eraseCatUser c).id)) >>= _ = _
  rw [List.find?_map]
  have hp : ((fun i => i.id == id) ∘ eraseIdxUser) = (fun (i : Index) => i.id == id) := by
    funext i
    rfl
  rw [hp]
  cases hf : c.indexes.find? (fun i => i.id == id) <;>
    simp [Except.bind, eraseCatUser, eraseIdxUser, indexValue]

/-- `buildMetrics` in market mode ignores the user data erased by
`eraseCatUser`. -/
theorem buildMetrics_erase (a b c d e : Category) :
    buildMetrics false (eraseCatUser a) (eraseCatUser b) (eraseCatUser c)
      (eraseCatUser d) (eraseCatUser e) = buildMetrics false a b c d e := by
  unfold buildMetrics
  simp only [metricOf_erase]

/-- `categoriesToMetrics` in market mode ignores the user data erased by
`eraseCatUser`. -/
theorem categoriesToMetrics_erase (cats : List Category) :
    categoriesToMetrics (cats.map eraseCatUser) false = categoriesToMetrics cats false := by
  unfold categoriesToMetrics
  rw [requireCategory_erase, requireCategory_erase, requireCategory_erase,
    requireCategory_erase, requireCategory_erase]
  cases h1 : requireCategory cats valuationId with
  | none => rfl
  | some c1 =>
    cases h2 : requireCategory cats sentimentId with
    | none => rfl
    | some c2 =>
      cases h3 : requireCategory cats positioningId with
      | none => rfl
      | some c3 =>
        cases h4 : requireCategory cats macroId with
        | none => rfl
        | some c4 =>
          cases h5 : requireCategory cats fundamentalsId with
          | none => rfl
          | some c5 => exact buildMetrics_erase c1 c2 c3 c4 c5

/-- Pointwise market agreement of indexes makes the erasures equal. -/
theorem eraseIdx_eq_of_agree {l₁ l₂ : List Index}
    (h : List.Forall₂ IndexMarketAgree l₁ l₂) :
    l₁.map eraseIdxUser = l₂.map eraseIdxUser := by
  induction h with
  | nil => rfl
  | cons hab _ ih =>
    simp only [List.map_cons, ih, List.cons.injEq, and_true]
    unfold eraseIdxUser
    rw [hab.1, hab.2]

/-- Pointwise market agreement of categories makes the erasures equal. -/
theorem eraseCat_eq_of_agree {cats₁ cats₂ : List Category}
    (h : List.Forall₂ CategoryMarketAgree cats₁ cats₂) :
    cats₁.map eraseCatUser = cats₂.map eraseCatUser := by
  induction h with
  | nil => rfl
  | cons hab _ ih =>
    simp only [List.map_cons, ih, List.cons.injEq, and_true]
    unfold eraseCatUser
    rw [hab.1, eraseIdx_eq_of_agree hab.2]

/-- Appending a turn to a conversation extends exactly that history. -/
theorem historyOf_appendTurn_self (b : StoredBubble) (cid : Nat) (t : Turn) :
    historyOf (appendTurn b cid t) cid = historyOf b cid ++ [t] := by
  obtain ⟨ind, sc, lv, pe, convs, next⟩ := b
  unfold appendTurn historyOf
  dsimp only
  by_cases h : (convs.find? (fun p => p.1 == cid)).isSome = true
  · rw [if_pos h]
    simp only
    rw [List.find?_map]
    have hp : ((fun (p : Nat × List Turn) => p.1 == cid) ∘
        (fun p => if p.1 == cid then (p.1, p.2 ++ [t]) else p)) =
        (fun (p : Nat × List Turn) => p.1 == cid) := by
      funext p
      by_cases hpc : p.1 = cid <;> simp [hpc]
    rw [hp]
    obtain ⟨p, hfp⟩ := Option.isSome_iff_exists.1 h
    rw [hfp]
    have hpc := List.find?_some hfp
    simp only at hpc
    have hpe : p.1 = cid := by simpa using hpc
    simp [hpe]
  · rw [if_neg h]
    simp only
    rw [find?_append_one]
    have hnone : convs.find? (fun p => p.1 == cid) = none :=
      Option.not_isSome_iff_eq_none.1 h
    rw [hnone]
    simp

/-- Passing a bind in `Except` means the first stage passed. -/
theorem bind_ok_left {α β : Type} {x : Except String α} {f : α → Except String β} {b : β}
    (h : x >>= f = Except.ok b) : ∃ a, x = Except.ok a ∧ f a = Except.ok b := by
  cases x with
  | error e => simp [Bind.bind, Except.bind] at h
  | ok a => exact ⟨a, rfl, by simpa [Bind.bind, Except.bind] using h⟩

/-- A passing `metricOf` lookup means the index id is present. -/
theorem metricOf_ok_isSome {u : Bool} {c : Category} {id : String} {v : ℚ}
    (h : metricOf u c id = Except.ok v) :
    (c.indexes.find? (fun i => i.id == id)).isSome = true := by
  unfold metricOf findIndexById at h
  cases hf : c.indexes.find? (fun i => i.id == id) with
  | none =>
    rw [hf] at h
    simp [Bind.bind, Except.bind] at h
  | some i => rfl

/-- If every category is nonempty with constant index value `k`,
nonnegative index weights and positive market weight, the client risk
score is exactly `k`. -/
theorem const_risk_score (cats : List Category) (k : ℚ) (hne : cats ≠ [])
    (hc : ∀ c ∈ cats, c.indexes ≠ [] ∧ 0 < c.marketWeight ∧
      ∀ i ∈ c.indexes, i.value = k ∧ 0 ≤ i.marketWeight) :
    calculateClientRiskScore cats false = k := by
  apply calculateClientRiskScore_const
  · intro c hcm
    obtain ⟨hne2, _, hi⟩ := hc c hcm
    apply clientCategoryScore_const false c k hne2
    · intro i hii
      rw [indexValue_false]
      exact (hi i hii).1
    · intro i hii
      exact (hi i hii).2
  · have hpos : 0 < (cats.map (fun c => c.marketWeight)).sum :=
      map_sum_pos cats _ hne (fun c hcm => (hc c hcm).2.1)
    exact hpos

/-- Claim C1 counterexample: `zeroWeightCats` is a valid five-category
indicator set (all values and weights inside `[0,100]`), yet the code
scores it 50 while the claimed formula gives 100 — the code coerces the
zero sub-indicator weight to 1 (`marketWeight || 1`), the claimed formula
keeps it at 0. -/
theorem claim_c1_counterexample :
    calculateClientRiskScore zeroWeightCats false = 50 ∧
      claimRiskScore zeroWeightCats = 100 := by
  constructor
  · norm_num [calculateClientRiskScore, clientCategoryScore, zeroWeightCats, indexValue,
      indexWeight, effWeight, categoryWeight]
  · norm_num [claimRiskScore, claimCategoryScore, zeroWeightCats]

/-- Claim C1 (amended): for every valid indicator set (values and weights
nonnegative, values at most 100) with positive total category weight, the
risk score equals `min(100, (sum of category_score times category_weight)
/ (sum of category_weight))` where `category_score` is the weighted
average over the effective sub-indicator weights — a raw weight of 0
being coerced to 1 by `marketWeight || 1`. -/
theorem claim_c1_riskScore_formula (cats : List Category)
    (hcw : ∀ c ∈ cats, 0 ≤ c.marketWeight)
    (hidx : ∀ c ∈ cats, ∀ i ∈ c.indexes, 0 ≤ i.value ∧ i.value ≤ 100 ∧ 0 ≤ i.marketWeight)
    (htot : 0 < (cats.map (fun c => c.marketWeight)).sum) :
    calculateClientRiskScore cats false = specRiskScore cats := by
  rw [calculateClientRiskScore_eq]
  have hmapw : cats.map (categoryWeight false) = cats.map (fun c => c.marketWeight) := rfl
  rw [hmapw, if_pos htot]
  have hnum : cats.map (fun c => clientCategoryScore false c * categoryWeight false c) =
      cats.map (fun c => specCategoryScore c * c.marketWeight) := by
    apply List.map_congr_left
    intro c hc
    rw [categoryWeight_false, clientCategoryScore_false_spec c (fun i hi => (hidx c hc i hi).2.2)]
  rw [hnum]
  unfold specRiskScore
  symm
  apply min_eq_right
  rw [div_le_iff₀ htot]
  have hcs : ∀ c ∈ cats, specCategoryScore c ≤ 100 := by
    intro c hc
    rw [← clientCategoryScore_false_spec c (fun i hi => (hidx c hc i hi).2.2)]
    exact clientCategoryScore_le false c
      (fun i hi => by rw [indexValue_false]; exact (hidx c hc i hi).2.1)
      (fun i hi => (hidx c hc i hi).2.2)
  exact weighted_sum_le cats specCategoryScore (fun c => c.marketWeight) 100 hcs hcw

/-- Witness for the amended C1 theorem at the concrete complete payload. -/
theorem claim_c1_riskScore_formula_witness :
    (0:ℚ) < ((completeCats 50).map (fun c => c.marketWeight)).sum ∧
      calculateClientRiskScore (completeCats 50) false = specRiskScore (completeCats 50) := by
  constructor
  · norm_num [completeCats, sampleIndex]
  · exact claim_c1_riskScore_formula (completeCats 50)
      (by norm_num [completeCats, sampleIndex, List.forall_mem_cons])
      (by norm_num [completeCats, sampleIndex, List.forall_mem_cons])
      (by norm_num [completeCats, sampleIndex])

/-- Claim C2 counterexample: the code maps score 66.67 to MEDIUM (the
claim says HIGH) and 33.33999 to MEDIUM (the claim says LOW). -/
theorem claim_c2_counterexample :
    getRiskLevel (6667/100) = RiskLevel.MEDIUM ∧
      getRiskLevel (3333999/100000) = RiskLevel.MEDIUM := by
  constructor <;> norm_num [getRiskLevel]

/-- Claim C2 (amended): the fixed thresholds are 33 and 67, boundary
inclusive on the lower edge and exclusive on the upper: a score strictly
below 33 maps to LOW, at least 33 and strictly below 67 to MEDIUM, and at
least 67 to HIGH — hence 33.34, 33.33999, 66.67 and 66.66999 all map to
MEDIUM. -/
theorem claim_c2_riskLevel_thresholds (s : ℚ) :
    (s < 33 → getRiskLevel s = RiskLevel.LOW) ∧
    (33 ≤ s → s < 67 → getRiskLevel s = RiskLevel.MEDIUM) ∧
    (67 ≤ s → getRiskLevel s = RiskLevel.HIGH) := by
  unfold getRiskLevel
  refine ⟨fun h => if_pos h, fun h1 h2 => ?_, fun h => ?_⟩
  · rw [if_neg (not_lt.2 h1), if_pos h2]
  · rw [if_neg (not_lt.2 (by linarith)), if_neg (not_lt.2 h)]

/-- Witness for the amended C2 theorem at score 50. -/
theorem claim_c2_riskLevel_thresholds_witness :
    ((33:ℚ) ≤ 50 ∧ (50:ℚ) < 67) ∧ getRiskLevel 50 = RiskLevel.MEDIUM :=
  ⟨⟨by norm_num, by norm_num⟩,
   (claim_c2_riskLevel_thresholds 50).2.1 (by norm_num) (by norm_num)⟩

/-- Claim C3 counterexample: `uniformFiftyCats` has every sub-indicator
value 50, uniform sub-indicator weights in every category and all five
category weights equal (50), yet the UserAnalysis page-level
`calculateScore` — one of the two scoring functions the claim is about —
rates it 25, not 50, and 25 maps to LOW, not MEDIUM. -/
theorem claim_c3_counterexample :
    userCalculateScore uniformFiftyCats = 25 ∧ getRiskLevel 25 = RiskLevel.LOW := by
  constructor
  · norm_num [userCalculateScore, uniformFiftyCats]
  · norm_num [getRiskLevel]

/-- Claim C3 (amended): under `calculateClientRiskScore` the three spec
examples hold — uniform value 50 (any nonempty categories, positive
category weights, nonnegative sub-weights) scores exactly 50 = MEDIUM,
all values 0 score 0 = LOW, all values 100 score 100 = HIGH; the
UserAnalysis `calculateScore` instead scales by `userWeight / 100` and so
reproduces them only at weight 100. -/
theorem claim_c3_score_examples :
    (∀ cats, cats ≠ [] →
      (∀ c ∈ cats, c.indexes ≠ [] ∧ 0 < c.marketWeight ∧
        ∀ i ∈ c.indexes, i.value = 50 ∧ 0 ≤ i.marketWeight) →
      calculateClientRiskScore cats false = 50 ∧
        getRiskLevel (calculateClientRiskScore cats false) = RiskLevel.MEDIUM) ∧
    (∀ cats, (∀ c ∈ cats, ∀ i ∈ c.indexes, i.value = 0) →
      calculateClientRiskScore cats false = 0 ∧
        getRiskLevel (calculateClientRiskScore cats false) = RiskLevel.LOW) ∧
    (∀ cats, cats ≠ [] →
      (∀ c ∈ cats, c.indexes ≠ [] ∧ 0 < c.marketWeight ∧
        ∀ i ∈ c.indexes, i.value = 100 ∧ 0 ≤ i.marketWeight) →
      calculateClientRiskScore cats false = 100 ∧
        getRiskLevel (calculateClientRiskScore cats false) = RiskLevel.HIGH) := by
  refine ⟨fun cats hne hc => ?_, fun cats hv => ?_, fun cats hne hc => ?_⟩
  · have hs := const_risk_score cats 50 hne hc
    exact ⟨hs, by rw [hs]; norm_num [getRiskLevel]⟩
  · have hs := calculateClientRiskScore_zero cats false
      (fun c hc2 => clientCategoryScore_zero false c
        (fun i hi => by rw [indexValue_false]; exact hv c hc2 i hi))
    exact ⟨hs, by rw [hs]; norm_num [getRiskLevel]⟩
  · have hs := const_risk_score cats 100 hne hc
    exact ⟨hs, by rw [hs]; norm_num [getRiskLevel]⟩

/-- Witness for the amended C3 theorem at the uniform-50 payload. -/
theorem claim_c3_score_examples_witness :
    uniformFiftyCats ≠ [] ∧
      calculateClientRiskScore uniformFiftyCats false = 50 ∧
      getRiskLevel (calculateClientRiskScore uniformFiftyCats false) = RiskLevel.MEDIUM :=
  ⟨by simp [uniformFiftyCats],
   (claim_c3_score_examples.1 uniformFiftyCats (by simp [uniformFiftyCats])
      (by norm_num [uniformFiftyCats, List.forall_mem_cons]; simp)).1,
   (claim_c3_score_examples.1 uniformFiftyCats (by simp [uniformFiftyCats])
      (by norm_num [uniformFiftyCats, List.forall_mem_cons]; simp)).2⟩

/-- Claim C4 counterexample: `overflowCats` is an indicator set whose
weighted aggregation arithmetically exceeds 100 (every value is 150), yet
`calculateClientRiskScore` reports 150, not 100 — it has no ceiling
clamp. -/
theorem claim_c4_counterexample :
    calculateClientRiskScore overflowCats false = 150 ∧ (100:ℚ) < 150 := by
  constructor
  · norm_num [calculateClientRiskScore, clientCategoryScore, overflowCats, indexValue,
      indexWeight, effWeight, categoryWeight]
  · norm_num

/-- Claim C4 (amended): the page-level `calculateScore` of
MarketConsensus.tsx is clamped with `Math.min(100, ...)` and never
exceeds 100 on any input; `calculateClientRiskScore` has no clamp, but
for indicator sets whose values are at most 100 (with nonnegative
weights) it also never exceeds 100. -/
theorem claim_c4_score_cap :
    (∀ cats, marketCalculateScore cats ≤ 100) ∧
    (∀ cats, (∀ c ∈ cats, 0 ≤ c.marketWeight ∧
        ∀ i ∈ c.indexes, i.value ≤ 100 ∧ 0 ≤ i.marketWeight) →
      calculateClientRiskScore cats false ≤ 100) := by
  constructor
  · intro cats
    unfold marketCalculateScore
    dsimp only
    split
    · exact min_le_left _ _
    · norm_num
  · intro cats h
    apply calculateClientRiskScore_le
    · intro c hc i hi
      rw [indexValue_false]
      exact ((h c hc).2 i hi).1
    · intro c hc i hi
      exact ((h c hc).2 i hi).2
    · intro c hc
      rw [categoryWeight_false]
      exact (h c hc).1

/-- Witness for the amended C4 theorem at the concrete complete payload. -/
theorem claim_c4_score_cap_witness :
    marketCalculateScore (completeCats 50) ≤ 100 ∧
      calculateClientRiskScore (completeCats 50) false ≤ 100 :=
  ⟨claim_c4_score_cap.1 (completeCats 50),
   claim_c4_score_cap.2 (completeCats 50)
     (by norm_num [completeCats, sampleIndex, List.forall_mem_cons])⟩

/-- Claim C5 counterexample: `zeroWeightCategory` has total raw
sub-indicator weight 0, yet the scoring computation assigns it category
score 80 (the mean of its values after the `marketWeight || 1` coercion),
not 0, and that score propagates to the aggregate. -/
theorem claim_c5_counterexample :
    (zeroWeightCategory.indexes.map (fun i => i.marketWeight)).sum = 0 ∧
      clientCategoryScore false zeroWeightCategory = 80 ∧
      calculateClientRiskScore [zeroWeightCategory] false = 80 := by
  refine ⟨by norm_num [zeroWeightCategory], ?_, ?_⟩
  · norm_num [clientCategoryScore, zeroWeightCategory, indexValue, indexWeight, effWeight]
  · norm_num [calculateClientRiskScore, clientCategoryScore, zeroWeightCategory, indexValue,
      indexWeight, effWeight, categoryWeight]

/-- Claim C5 (amended): the computation never divides by zero — division
is guarded by a positivity test on the accumulated weight — but a
category whose raw sub-indicator weights are all zero is scored as the
unweighted mean of its values (each zero weight is coerced to 1 by
`marketWeight || 1`), not as 0; only a category with no sub-indicators at
all is scored 0. -/
theorem claim_c5_zero_weight_category :
    (∀ c : Category, c.indexes ≠ [] → (∀ i ∈ c.indexes, i.marketWeight = 0) →
      clientCategoryScore false c =
        (c.indexes.map (fun i => i.value)).sum / (c.indexes.length : ℚ)) ∧
    (∀ c : Category, c.indexes = [] → clientCategoryScore false c = 0) := by
  constructor
  · intro c hne hw
    rw [clientCategoryScore_eq]
    have hwone : ∀ i ∈ c.indexes, indexWeight false i = 1 := by
      intro i hi
      rw [indexWeight_false, hw i hi]
      rfl
    have hW : (c.indexes.map (indexWeight false)).sum = (c.indexes.length : ℚ) := by
      rw [List.map_congr_left hwone, sum_map_one]
    have hlen : (0:ℚ) < (c.indexes.length : ℚ) := by
      exact_mod_cast List.length_pos.2 hne
    rw [hW, if_pos hlen]
    have hmapv : c.indexes.map (fun i => indexValue false i * indexWeight false i) =
        c.indexes.map (fun i => i.value) := by
      apply List.map_congr_left
      intro i hi
      rw [indexValue_false, hwone i hi, mul_one]
    rw [hmapv]
  · intro c hemp
    unfold clientCategoryScore
    rw [hemp]
    simp

/-- Witness for the amended C5 theorem: a two-index category with weights
0 scores the plain mean of its values. -/
theorem claim_c5_zero_weight_category_witness :
    meanWitnessCategory.indexes ≠ [] ∧ clientCategoryScore false meanWitnessCategory = 50 := by
  constructor
  · simp [meanWitnessCategory]
  · have h := claim_c5_zero_weight_category.1 meanWitnessCategory
      (by simp [meanWitnessCategory])
      (by norm_num [meanWitnessCategory, List.forall_mem_cons])
    rw [h]
    norm_num [meanWitnessCategory]

/-- Claim C6 counterexample: a payload whose `pe-ratio` value is 150 —
outside `[0,100]` — is not rejected by `categoriesToMetrics`: it
normalizes successfully and the out-of-range value is passed through
unchanged, neither failing validation nor being clamped. -/
theorem claim_c6_counterexample :
    categoriesToMetrics (completeCats 150) false = Except.ok (completeMetrics 150) ∧
      (completeMetrics 150).category1Valuation.peRatioValue = 150 :=
  ⟨rfl, rfl⟩

/-- Claim C6 (amended): `categoriesToMetrics` performs no range check at
all — for any value whatsoever, in or out of `[0,100]`, the complete
payload normalizes successfully with the value passed through unchanged
into the metrics record. -/
theorem claim_c6_no_range_validation (v : ℚ) :
    categoriesToMetrics (completeCats v) false = Except.ok (completeMetrics v) := rfl

/-- Claim C7 counterexample: removing the valuation category and removing
the macro category produce the identical generic error
`Missing required categories` — the error does not name the offending
field. -/
theorem claim_c7_counterexample :
    categoriesToMetrics (catsWithout valuationId) false = Except.error missingCategoriesMsg ∧
      categoriesToMetrics (catsWithout macroId) false = Except.error missingCategoriesMsg :=
  ⟨rfl, rfl⟩

/-- Claim C7 (amended): normalization fails — and never silently defaults
— on incomplete payloads, but the missing-category error is the generic
`Missing required categories` naming no field; only a missing
sub-indicator is reported by name together with its category.
Conjuncts: (1) any payload lacking one of the five categories yields the
generic error; (2) `findIndex` reports a missing sub-indicator id with an
error naming the id and the category; (3) a payload that normalizes
successfully contains all five categories and their complete fixed
sub-indicator schema. -/
theorem claim_c7_validation_errors :
    (∀ cats u,
      (requireCategory cats valuationId = none ∨ requireCategory cats sentimentId = none ∨
       requireCategory cats positioningId = none ∨ requireCategory cats macroId = none ∨
       requireCategory cats fundamentalsId = none) →
      categoriesToMetrics cats u = Except.error missingCategoriesMsg) ∧
    (∀ (c : Category) (id : String), c.indexes.find? (fun i => i.id == id) = none →
      findIndexById c id = Except.error (indexNotFoundMsg id c.id)) ∧
    (∀ cats u m, categoriesToMetrics cats u = Except.ok m →
      ∀ p ∈ requiredSchema, categoryHasIndex cats p.1 p.2 = true) := by
  refine ⟨?_, ?_, ?_⟩
  · intro cats u h
    unfold categoriesToMetrics
    cases h1 : requireCategory cats valuationId with
    | none => rfl
    | some c1 =>
      cases h2 : requireCategory cats sentimentId with
      | none => rfl
      | some c2 =>
        cases h3 : requireCategory cats positioningId with
        | none => rfl
        | some c3 =>
          cases h4 : requireCategory cats macroId with
          | none => rfl
          | some c4 =>
            cases h5 : requireCategory cats fundamentalsId with
            | none => rfl
            | some c5 => rcases h with h | h | h | h | h <;> simp_all
  · intro c id h
    unfold findIndexById
    rw [h]
  · intro cats u m h
    unfold categoriesToMetrics at h
    rcases hv : requireCategory cats valuationId with _ | c1
    · rw [hv] at h
      exact absurd h (by simp)
    rw [hv] at h
    rcases hs2 : requireCategory cats sentimentId with _ | c2
    · rw [hs2] at h
      exact absurd h (by simp)
    rw [hs2] at h
    rcases hs3 : requireCategory cats positioningId with _ | c3
    · rw [hs3] at h
      exact absurd h (by simp)
    rw [hs3] at h
    rcases hs4 : requireCategory cats macroId with _ | c4
    · rw [hs4] at h
      exact absurd h (by simp)
    rw [hs4] at h
    rcases hs5 : requireCategory cats fundamentalsId with _ | c5
    · rw [hs5] at h
      exact absurd h (by simp)
    rw [hs5] at h
    unfold buildMetrics at h
    obtain ⟨x1, hx1, h⟩ := bind_ok_left h
    obtain ⟨x2, hx2, h⟩ := bind_ok_left h
    obtain ⟨x3, hx3, h⟩ := bind_ok_left h
    obtain ⟨x4, hx4, h⟩ := bind_ok_left h
    obtain ⟨x5, hx5, h⟩ := bind_ok_left h
    obtain ⟨x6, hx6, h⟩ := bind_ok_left h
    obtain ⟨x7, hx7, h⟩ := bind_ok_left h
    obtain ⟨x8, hx8, h⟩ := bind_ok_left h
    obtain ⟨x9, hx9, h⟩ := bind_ok_left h
    obtain ⟨x10, hx10, h⟩ := bind_ok_left h
    obtain ⟨x11, hx11, h⟩ := bind_ok_left h
    obtain ⟨x12, hx12, h⟩ := bind_ok_left h
    obtain ⟨x13, hx13, h⟩ := bind_ok_left h
    obtain ⟨x14, hx14, h⟩ := bind_ok_left h
    obtain ⟨x15, hx15, h⟩ := bind_ok_left h
    obtain ⟨x16, hx16, h⟩ := bind_ok_left h
    obtain ⟨x17, hx17, h⟩ := bind_ok_left h
    obtain ⟨x18, hx18, h⟩ := bind_ok_left h
    obtain ⟨x19, hx19, h⟩ := bind_ok_left h
    obtain ⟨x20, hx20, h⟩ := bind_ok_left h
    obtain ⟨x21, hx21, h⟩ := bind_ok_left h
    obtain ⟨x22, hx22, h⟩ := bind_ok_left h
    intro p hp
    simp only [requiredSchema] at hp
    fin_cases hp <;>
      simp only [categoryHasIndex, hv, hs2, hs3, hs4, hs5] <;>
      first
        | exact metricOf_ok_isSome hx1
        | exact metricOf_ok_isSome hx2
        | exact metricOf_ok_isSome hx3
        | exact metricOf_ok_isSome hx4
        | exact metricOf_ok_isSome hx5
        | exact metricOf_ok_isSome hx6
        | exact metricOf_ok_isSome hx7
        | exact metricOf_ok_isSome hx8
        | exact metricOf_ok_isSome hx9
        | exact metricOf_ok_isSome hx10
        | exact metricOf_ok_isSome hx11
        | exact metricOf_ok_isSome hx12
        | exact metricOf_ok_isSome hx13
        | exact metricOf_ok_isSome hx14
        | exact metricOf_ok_isSome hx15
        | exact metricOf_ok_isSome hx16
        | exact metricOf_ok_isSome hx17
        | exact metricOf_ok_isSome hx18
        | exact metricOf_ok_isSome hx19
        | exact metricOf_ok_isSome hx20
        | exact metricOf_ok_isSome hx21
        | exact metricOf_ok_isSome hx22

/-- Witness for the amended C7 theorem: the complete payload normalizes,
so conjunct (3) certifies two representative schema entries present. -/
theorem claim_c7_validation_errors_witness :
    categoryHasIndex (completeCats 50) valuationId peRatioId = true ∧
      categoryHasIndex (completeCats 50) macroId vixId = true :=
  ⟨claim_c7_validation_errors.2.2 (completeCats 50) false (completeMetrics 50) rfl
      (valuationId, peRatioId) (by simp [requiredSchema]),
   claim_c7_validation_errors.2.2 (completeCats 50) false (completeMetrics 50) rfl
      (macroId, vixId) (by simp [requiredSchema])⟩

/-- Claim C8 (confirmed, spec-modelled): upserting bubble `a` leaves the
stored record — snapshot and conversation log alike — of every other
bubble identifier `b` completely unchanged. -/
theorem claim_c8_upsert_isolation (st : List (String × StoredBubble)) (a b : String)
    (ind : List Category) (h : a ≠ b) :
    lookupBubble (upsertBubble st a ind) b = lookupBubble st b := by
  unfold upsertBubble
  cases hA : lookupBubble st a with
  | none =>
    unfold lookupBubble
    rw [find?_append_one]
    have hab : (a == b) = false := by simp [h]
    cases hf : st.find? (fun p => p.1 == b) <;> simp [hab]
  | some old =>
    unfold lookupBubble
    rw [List.find?_map]
    have hp : ((fun (p : String × StoredBubble) => p.1 == b) ∘
        (fun p => if p.1 == a then (p.1, freshBubble ind (some old)) else p)) =
        (fun (p : String × StoredBubble) => p.1 == b) := by
      funext p
      by_cases hpa : p.1 = a <;> simp [hpa]
    rw [hp]
    cases hf : st.find? (fun p => p.1 == b) with
    | none => rfl
    | some p =>
      have hpb := List.find?_some hf
      simp only at hpb
      have hpbe : p.1 = b := by simpa using hpb
      have hne2 : p.1 ≠ a := by rw [hpbe]; exact Ne.symm h
      simp [hne2]

/-- Witness for C8 at the concrete two-bubble store. -/
theorem claim_c8_upsert_isolation_witness :
    marketBubbleId ≠ personalBubbleId ∧
      lookupBubble (upsertBubble twoBubbleStore marketBubbleId (completeCats 80))
          personalBubbleId =
        lookupBubble twoBubbleStore personalBubbleId :=
  ⟨by decide,
   claim_c8_upsert_isolation twoBubbleStore marketBubbleId personalBubbleId
     (completeCats 80) (by decide)⟩

/-- Claim C9 (confirmed, spec-modelled): two sequential voice calls with
the same conversation identifier, starting from an unseen identifier,
leave a history of exactly the two turns in call order; a call supplying
no identifier answers with a newly minted identifier distinct from every
identifier previously issued for that bubble (the minting-counter
invariant being that known identifiers are below the counter). -/
theorem claim_c9_conversation_continuity :
    (∀ (b : StoredBubble) (c : Nat) (u1 a1 u2 a2 : String),
      historyOf b c = [] →
      historyOf ((voiceTurn ((voiceTurn b (some c) u1 a1).1) (some c) u2 a2).1) c =
        [⟨u1, a1⟩, ⟨u2, a2⟩]) ∧
    (∀ (b : StoredBubble) (u a : String),
      (∀ p ∈ b.conversations, p.1 < b.nextConvId) →
      (voiceTurn b none u a).2 ∉ b.conversations.map Prod.fst) := by
  constructor
  · intro b c u1 a1 u2 a2 h
    simp only [voiceTurn]
    rw [historyOf_appendTurn_self, historyOf_appendTurn_self, h]
    rfl
  · intro b u a hinv hmem
    simp only [voiceTurn] at hmem
    rcases List.mem_map.1 hmem with ⟨p, hp, hfst⟩
    have hlt := hinv p hp
    rw [hfst] at hlt
    exact lt_irrefl _ hlt

/-- Witness for C9 at a concrete bubble with an empty log. -/
theorem claim_c9_conversation_continuity_witness :
    historyOf ((voiceTurn ((voiceTurn emptyBubble (some 0) greetingText greetingReply).1)
        (some 0) followText followReply).1) 0 =
      [⟨greetingText, greetingReply⟩, ⟨followText, followReply⟩] ∧
    (voiceTurn emptyBubble none greetingText greetingReply).2 ∉
      emptyBubble.conversations.map Prod.fst :=
  ⟨claim_c9_conversation_continuity.1 emptyBubble 0 greetingText greetingReply
      followText followReply rfl,
   claim_c9_conversation_continuity.2 emptyBubble greetingText greetingReply
      (by intro p hp; simp [emptyBubble] at hp)⟩

/-- Claim C10 (confirmed): in market mode (`useUserValues = false`) the
metrics produced by `categoriesToMetrics` are independent of every
`userValue` field — payloads agreeing on category ids, index ids and
market values produce identical results, errors included. -/
theorem claim_c10_user_value_noninterference (cats1 cats2 : List Category)
    (h : List.Forall₂ CategoryMarketAgree cats1 cats2) :
    categoriesToMetrics cats1 false = categoriesToMetrics cats2 false := by
  rw [← categoriesToMetrics_erase cats1, ← categoriesToMetrics_erase cats2,
    eraseCat_eq_of_agree h]

/-- Witness for C10: the complete payload with user overrides everywhere
normalizes to the same metrics as the one without any. -/
theorem claim_c10_user_value_noninterference_witness :
    categoriesToMetrics completeCatsU false = categoriesToMetrics (completeCats 50) false :=
  claim_c10_user_value_noninterference completeCatsU (completeCats 50)
    (by simp [completeCatsU, completeCats, sampleIndexU, sampleIndex,
      CategoryMarketAgree, IndexMarketAgree, List.forall₂_cons])
